import Mathlib

/-!
Verification of the payment-confirmation polling loops of the
pharmgpt-mobile repository.

The repository contains two near-identical polling routines:

* `pollPaymentStatus` (consultations screen, src/unnamed/part_000,
  lines 123-170), and
* `verifyPaymentStatus` (payment-success screen, src/app/index.tsx,
  lines 1624-1671).

Both have the shape

```
const poll = async (sessionId, attempts = 0) => {
  const maxAttempts = 10;
  const pollInterval = 2000;
  if (attempts >= maxAttempts) { resolve TimedOut; return; }
  try {
    const data = (await axios.get(statusUrl)).data;       // one query
    if (data.payment_status === "paid") { resolve Paid; return; }
    else if (data.status === "expired") { resolve Expired; return; }
    setTimeout(() => poll(sessionId, attempts + 1), pollInterval);
  } catch (error) {
    if (attempts < 3) {
      setTimeout(() => poll(sessionId, attempts + 1), pollInterval);
    } else { resolve Failed; }
  }
};
```

The embedding below models the environment (the backend plus the
network) as a function `env : Nat -> QueryResult` giving, for each
attempt index `a` (0-based), the outcome of the query issued at that
index: either a successful response carrying the two string fields the
code inspects, or a transport failure (the `catch` branch).  The poller
is a total function returning the terminal outcome together with the
number of queries issued and the total milliseconds spent in
`setTimeout` delays.  Recursion is structural on the remaining attempt
budget `maxAttempts - attempts`, which decreases by exactly one on every
continue branch of the source.
-/

/-- The two response fields the source code inspects
(`data.payment_status` and `data.status`). -/
structure StatusData where
  payment_status : String
  status : String
deriving DecidableEq, Repr

/-- Outcome of one status query: a successful HTTP response carrying the
parsed body, or a transport failure (the `catch` branch of the source:
network error, non-2xx, malformed body). -/
inductive QueryResult where
  | success : StatusData → QueryResult
  | failure : QueryResult
deriving DecidableEq, Repr

/-- The four terminal outcomes of a poll.  In the source these are the
four distinct resolution sites: the paid alert / success screen, the
expired alert / expired screen, the timeout alert, and the
transport-failure alert / error screen. -/
inductive Outcome where
  | Paid : Outcome
  | Expired : Outcome
  | TimedOut : Outcome
  | Failed : Outcome
deriving DecidableEq, Repr

/-- `const maxAttempts = 10` in both source routines. -/
def maxAttempts : Nat := 10

/-- `const pollInterval = 2000` in both source routines. -/
def pollInterval : Nat := 2000

/-- Result of a poll invocation: the terminal outcome, the number of
status queries issued, and the total milliseconds of `setTimeout`
delay scheduled between queries. -/
structure PollResult where
  outcome : Outcome
  queries : Nat
  delayMs : Nat
deriving DecidableEq, Repr

/-- Core of `pollPaymentStatus` (src/unnamed/part_000, lines 123-170),
with the remaining attempt budget `maxAttempts - attempts` made an
explicit structural-recursion argument.  The budget is exhausted
(`remaining = 0`) exactly when the source guard `attempts >= maxAttempts`
fires, and each continue branch of the source decrements it by one while
incrementing `attempts`. -/
def pollAux (env : Nat → QueryResult) : Nat → Nat → PollResult
  | 0, _ => ⟨Outcome.TimedOut, 0, 0⟩
  | remaining + 1, attempts =>
    match env attempts with
    | QueryResult.success data =>
      if data.payment_status = "paid" then
        ⟨Outcome.Paid, 1, 0⟩
      else if data.status = "expired" then
        ⟨Outcome.Expired, 1, 0⟩
      else
        let t := pollAux env remaining (attempts + 1)
        ⟨t.outcome, t.queries + 1, t.delayMs + pollInterval⟩
    | QueryResult.failure =>
      if attempts < 3 then
        let t := pollAux env remaining (attempts + 1)
        ⟨t.outcome, t.queries + 1, t.delayMs + pollInterval⟩
      else
        ⟨Outcome.Failed, 1, 0⟩

/-- `pollPaymentStatus` of the consultations screen
(src/unnamed/part_000, lines 123-170), as a function of the environment
and the starting `attempts` value (the source default is 0). -/
def pollPaymentStatus (env : Nat → QueryResult) (attempts : Nat) : PollResult :=
  pollAux env (maxAttempts - attempts) attempts

/-- Core of `verifyPaymentStatus` (src/app/index.tsx, lines 1624-1671),
embedded independently of `pollAux`: the second screen duplicates the
polling logic, and the duplicate is translated on its own so that the
equivalence of the two routines is a theorem, not a definition. -/
def verifyAux (env : Nat → QueryResult) : Nat → Nat → PollResult
  | 0, _ => ⟨Outcome.TimedOut, 0, 0⟩
  | remaining + 1, attempts =>
    match env attempts with
    | QueryResult.success data =>
      if data.payment_status = "paid" then
        ⟨Outcome.Paid, 1, 0⟩
      else if data.status = "expired" then
        ⟨Outcome.Expired, 1, 0⟩
      else
        let t := verifyAux env remaining (attempts + 1)
        ⟨t.outcome, t.queries + 1, t.delayMs + pollInterval⟩
    | QueryResult.failure =>
      if attempts < 3 then
        let t := verifyAux env remaining (attempts + 1)
        ⟨t.outcome, t.queries + 1, t.delayMs + pollInterval⟩
      else
        ⟨Outcome.Failed, 1, 0⟩

/-- `verifyPaymentStatus` of the payment-success screen
(src/app/index.tsx, lines 1624-1671). -/
def verifyPaymentStatus (env : Nat → QueryResult) (attempts : Nat) : PollResult :=
  verifyAux env (maxAttempts - attempts) attempts

/-- A query outcome that the loop treats as "still pending": a
successful response that is neither paid nor expired. -/
def isPendingResponse (q : QueryResult) : Bool :=
  match q with
  | QueryResult.success data =>
    !(data.payment_status = "paid") && !(data.status = "expired")
  | QueryResult.failure => false

/-- A query outcome the loop treats as paid. -/
def isPaidResponse (q : QueryResult) : Bool :=
  match q with
  | QueryResult.success data => data.payment_status = "paid"
  | QueryResult.failure => false

/-- State-machine view of the same loop body (spec section 4.1): the
poller is either still polling at a given attempt index or done with a
terminal outcome.  In the source, `Done` corresponds to one of the four
`return`-after-resolution sites; `Polling a` to a scheduled
`setTimeout(() => poll(sessionId, a), pollInterval)` (or the initial
call with `a = 0`). -/
inductive PollState where
  | Polling : Nat → PollState
  | Done : Outcome → PollState
deriving DecidableEq, Repr

/-- One iteration of the loop body, as a transition on `PollState`.
The returned `Bool` records whether a status query was issued during
the transition: the `attempts >= maxAttempts` guard returns before the
`axios.get`, and a done invocation never runs again.  The branches are
the same five as in `pollAux`. -/
def step (s : PollState) (q : QueryResult) : PollState × Bool :=
  match s with
  | PollState.Done o => (PollState.Done o, false)
  | PollState.Polling a =>
    if maxAttempts ≤ a then (PollState.Done Outcome.TimedOut, false)
    else
      match q with
      | QueryResult.success data =>
        if data.payment_status = "paid" then (PollState.Done Outcome.Paid, true)
        else if data.status = "expired" then (PollState.Done Outcome.Expired, true)
        else (PollState.Polling (a + 1), true)
      | QueryResult.failure =>
        if a < 3 then (PollState.Polling (a + 1), true)
        else (PollState.Done Outcome.Failed, true)

/-- The trajectory of the state machine from the initial call
`poll(sessionId, 0)`, consuming `env n` at step `n`. -/
def runPoll (env : Nat → QueryResult) : Nat → PollState
  | 0 => PollState.Polling 0
  | n + 1 => (step (runPoll env n) (env n)).1

/-- Whether a poll state is terminal. -/
def isDone (s : PollState) : Bool :=
  match s with
  | PollState.Done _ => true
  | PollState.Polling _ => false

/-! ### Unfolding lemmas for `pollAux`, one per branch of the source -/

/-- Paid branch: a successful response with `payment_status === "paid"`
resolves `Paid` after this single query, with no further delay. -/
theorem pollAux_paid_step (env : Nat → QueryResult) (r a : Nat)
    (data : StatusData) (hr : r ≠ 0)
    (hd : env a = QueryResult.success data)
    (hp : data.payment_status = "paid") :
    pollAux env r a = ⟨Outcome.Paid, 1, 0⟩ := by
  obtain ⟨s, rfl⟩ := Nat.exists_eq_succ_of_ne_zero hr
  unfold pollAux
  rw [hd]
  simp [hp]

/-- Expired branch: a successful response that is not paid but has
`status === "expired"` resolves `Expired` after this single query. -/
theorem pollAux_expired_step (env : Nat → QueryResult) (r a : Nat)
    (data : StatusData) (hr : r ≠ 0)
    (hd : env a = QueryResult.success data)
    (hp : data.payment_status ≠ "paid")
    (he : data.status = "expired") :
    pollAux env r a = ⟨Outcome.Expired, 1, 0⟩ := by
  obtain ⟨s, rfl⟩ := Nat.exists_eq_succ_of_ne_zero hr
  unfold pollAux
  rw [hd]
  simp [hp, he]

/-- Pending branch: a successful response that is neither paid nor
expired issues this query, schedules one `pollInterval` delay, and
continues with `attempts + 1`. -/
theorem pollAux_pending_step (env : Nat → QueryResult) (r a : Nat)
    (data : StatusData) (hr : r ≠ 0)
    (hd : env a = QueryResult.success data)
    (hp : data.payment_status ≠ "paid")
    (he : data.status ≠ "expired") :
    pollAux env r a =
      ⟨(pollAux env (r - 1) (a + 1)).outcome,
       (pollAux env (r - 1) (a + 1)).queries + 1,
       (pollAux env (r - 1) (a + 1)).delayMs + pollInterval⟩ := by
  obtain ⟨s, rfl⟩ := Nat.exists_eq_succ_of_ne_zero hr
  simp only [Nat.succ_sub_one, Nat.add_sub_cancel]
  conv_lhs => unfold pollAux
  rw [hd]
  simp [hp, he]

/-- Retried transport failure: the `catch` branch with `attempts < 3`
issues this query, schedules one delay, and continues with
`attempts + 1`. -/
theorem pollAux_fail_retry (env : Nat → QueryResult) (r a : Nat)
    (hr : r ≠ 0) (ha : a < 3)
    (hd : env a = QueryResult.failure) :
    pollAux env r a =
      ⟨(pollAux env (r - 1) (a + 1)).outcome,
       (pollAux env (r - 1) (a + 1)).queries + 1,
       (pollAux env (r - 1) (a + 1)).delayMs + pollInterval⟩ := by
  obtain ⟨s, rfl⟩ := Nat.exists_eq_succ_of_ne_zero hr
  simp only [Nat.succ_sub_one, Nat.add_sub_cancel]
  conv_lhs => unfold pollAux
  rw [hd]
  simp [ha]

/-- Fatal transport failure: the `catch` branch with `attempts >= 3`
resolves `Failed` after this single query. -/
theorem pollAux_fail_stop (env : Nat → QueryResult) (r a : Nat)
    (hr : r ≠ 0) (ha : 3 ≤ a)
    (hd : env a = QueryResult.failure) :
    pollAux env r a = ⟨Outcome.Failed, 1, 0⟩ := by
  obtain ⟨s, rfl⟩ := Nat.exists_eq_succ_of_ne_zero hr
  unfold pollAux
  rw [hd]
  simp [Nat.not_lt.mpr ha]

/-- Timeout guard: with the attempt budget exhausted the poller
resolves `TimedOut` without issuing a query. -/
theorem pollAux_timeout (env : Nat → QueryResult) (a : Nat) :
    pollAux env 0 a = ⟨Outcome.TimedOut, 0, 0⟩ := rfl

/-- The two duplicated loop cores agree on every environment, every
remaining budget and every attempt index. -/
theorem pollAux_eq_verifyAux (env : Nat → QueryResult) :
    ∀ r a, pollAux env r a = verifyAux env r a := by
  intro r
  induction r with
  | zero => intro a; rfl
  | succ n ih =>
    intro a
    unfold pollAux verifyAux
    cases env a with
    | success data =>
      by_cases h1 : data.payment_status = "paid"
      · simp [h1]
      · by_cases h2 : data.status = "expired"
        · simp [h1, h2]
        · simp [h1, h2, ih (a + 1)]
    | failure =>
      by_cases h : a < 3
      · simp [h, ih (a + 1)]
      · simp [h]

/-- The number of queries issued never exceeds the remaining attempt
budget. -/
theorem pollAux_queries_le (env : Nat → QueryResult) :
    ∀ r a, (pollAux env r a).queries ≤ r := by
  intro r
  induction r with
  | zero => intro a; exact Nat.le_refl 0
  | succ n ih =>
    intro a
    unfold pollAux
    cases env a with
    | success data =>
      by_cases h1 : data.payment_status = "paid"
      · simp [h1]
      · by_cases h2 : data.status = "expired"
        · simp [h1, h2]
        · simp [h1, h2]
          exact ih (a + 1)
    | failure =>
      by_cases h : a < 3
      · simp [h]
        exact ih (a + 1)
      · simp [h]

/-- If every query from some point on returns a pending response, the
poller consumes the whole remaining budget: it issues exactly
`r` queries, schedules `r` delays, and resolves `TimedOut`. -/
theorem pollAux_all_pending (env : Nat → QueryResult)
    (h : ∀ n, isPendingResponse (env n) = true) :
    ∀ r a, pollAux env r a = ⟨Outcome.TimedOut, r, r * pollInterval⟩ := by
  intro r
  induction r with
  | zero => intro a; rfl
  | succ n ih =>
    intro a
    have hp := h a
    cases hd : env a with
    | success data =>
      rw [hd] at hp
      simp only [isPendingResponse, Bool.and_eq_true, Bool.not_eq_true',
        decide_eq_false_iff_not] at hp
      rw [pollAux_pending_step env (n + 1) a data (Nat.succ_ne_zero n) hd hp.1 hp.2]
      rw [Nat.succ_sub_one, ih (a + 1)]
      simp [Nat.succ_mul]
    | failure =>
      rw [hd] at hp
      simp [isPendingResponse] at hp

/-- If the first `N - 1` responses seen from attempt index `a` are
pending and the `N`-th is paid, with `N` within the remaining budget,
the poller issues exactly `N` queries, schedules `N - 1` delays, and
resolves `Paid`. -/
theorem pollAux_paid_at (env : Nat → QueryResult) :
    ∀ N r a, 1 ≤ N → N ≤ r →
    (∀ k, k + 1 < N → isPendingResponse (env (a + k)) = true) →
    isPaidResponse (env (a + (N - 1))) = true →
    pollAux env r a = ⟨Outcome.Paid, N, (N - 1) * pollInterval⟩ := by
  intro N
  induction N with
  | zero => intro r a h1 _ _ _; cases h1
  | succ M ih =>
    intro r a _ hr hpend hpaid
    obtain ⟨s, rfl⟩ : ∃ s, r = s + 1 :=
      Nat.exists_eq_succ_of_ne_zero (Nat.pos_iff_ne_zero.mp (Nat.lt_of_lt_of_le (Nat.succ_pos M) hr))
    cases Nat.eq_zero_or_pos M with
    | inl hM0 =>
      subst hM0
      simp only [Nat.add_zero, Nat.succ_sub_one, Nat.add_sub_cancel] at hpaid ⊢
      cases hd : env a with
      | success data =>
        rw [hd] at hpaid
        simp only [isPaidResponse, decide_eq_true_eq] at hpaid
        rw [pollAux_paid_step env (s + 1) a data (Nat.succ_ne_zero s) hd hpaid]
        simp
      | failure =>
        rw [hd] at hpaid
        simp [isPaidResponse] at hpaid
    | inr hM1 =>
      have hp0 : isPendingResponse (env (a + 0)) = true := by
        exact hpend 0 (by omega)
      rw [Nat.add_zero] at hp0
      cases hd : env a with
      | success data =>
        rw [hd] at hp0
        simp only [isPendingResponse, Bool.and_eq_true, Bool.not_eq_true',
          decide_eq_false_iff_not] at hp0
        rw [pollAux_pending_step env (s + 1) a data (Nat.succ_ne_zero s) hd hp0.1 hp0.2]
        rw [Nat.succ_sub_one]
        have hrec : pollAux env s (a + 1) = ⟨Outcome.Paid, M, (M - 1) * pollInterval⟩ := by
          apply ih s (a + 1) hM1 (by omega)
          · intro k hk
            have := hpend (k + 1) (by omega)
            rw [show a + (k + 1) = a + 1 + k by omega] at this
            exact this
          · have := hpaid
            rw [show a + (M + 1 - 1) = a + 1 + (M - 1) by omega] at this
            exact this
        rw [hrec]
        simp only [Nat.succ_sub_one]
        have : (M - 1) * pollInterval + pollInterval = M * pollInterval := by
          have h2 : M - 1 + 1 = M := Nat.succ_pred_eq_of_pos hM1
          calc (M - 1) * pollInterval + pollInterval
              = (M - 1 + 1) * pollInterval := by rw [Nat.succ_mul]
            _ = M * pollInterval := by rw [h2]
        rw [this]
      | failure =>
        rw [hd] at hp0
        simp [isPendingResponse] at hp0

/-- From a polling state, one transition either advances the attempt
index by one or reaches a terminal state. -/
theorem step_polling_cases (b : Nat) (q : QueryResult) :
    (step (PollState.Polling b) q).1 = PollState.Polling (b + 1) ∨
    ∃ o, (step (PollState.Polling b) q).1 = PollState.Done o := by
  by_cases hb : maxAttempts ≤ b
  · right; exact ⟨Outcome.TimedOut, by simp [step, hb]⟩
  · cases q with
    | success data =>
      by_cases h1 : data.payment_status = "paid"
      · right; exact ⟨Outcome.Paid, by simp [step, hb, h1]⟩
      · by_cases h2 : data.status = "expired"
        · right; exact ⟨Outcome.Expired, by simp [step, hb, h1, h2]⟩
        · left; simp [step, hb, h1, h2]
    | failure =>
      by_cases h3 : b < 3
      · left; simp [step, hb, h3]
      · right; exact ⟨Outcome.Failed, by simp [step, hb, h3]⟩

/-- While the machine is still polling, its attempt index equals the
number of transitions taken so far. -/
theorem runPoll_polling_eq (env : Nat → QueryResult) :
    ∀ n a, runPoll env n = PollState.Polling a → a = n := by
  intro n
  induction n with
  | zero =>
    intro a h
    have h0 : runPoll env 0 = PollState.Polling 0 := rfl
    rw [h0] at h
    cases h
    rfl
  | succ m ih =>
    intro a h
    unfold runPoll at h
    cases hs : runPoll env m with
    | Done o => rw [hs] at h; simp [step] at h
    | Polling b =>
      rw [hs] at h
      rcases step_polling_cases b (env m) with hc | ⟨o, hc⟩
      · rw [hc] at h
        cases h
        have := ih b hs
        omega
      · rw [hc] at h
        cases h
  
/-- A terminal state persists for one more transition. -/
theorem runPoll_done_step (env : Nat → QueryResult) (n : Nat)
    (h : isDone (runPoll env n) = true) :
    runPoll env (n + 1) = runPoll env n := by
  cases hs : runPoll env n with
  | Polling a => rw [hs] at h; simp [isDone] at h
  | Done o =>
    unfold runPoll
    rw [hs]
    simp [step]

/-- A terminal state persists forever. -/
theorem runPoll_done_mono (env : Nat → QueryResult) :
    ∀ m n, n ≤ m → isDone (runPoll env n) = true →
    isDone (runPoll env m) = true := by
  intro m
  induction m with
  | zero =>
    intro n hn h
    have h0 : n = 0 := Nat.le_zero.mp hn
    rw [h0] at h
    exact h
  | succ k ih =>
    intro n hn h
    rcases Nat.eq_or_lt_of_le hn with heq | hlt
    · rw [heq] at h; exact h
    · have hk := ih n (by omega) h
      rw [runPoll_done_step env k hk]
      exact hk

/-- The machine is terminal after at most `maxAttempts + 1`
transitions. -/
theorem runPoll_done_eleven (env : Nat → QueryResult) :
    isDone (runPoll env (maxAttempts + 1)) = true := by
  cases hs : runPoll env maxAttempts with
  | Done o =>
    have h : isDone (runPoll env maxAttempts) = true := by rw [hs]; rfl
    exact runPoll_done_mono env (maxAttempts + 1) maxAttempts (by omega) h
  | Polling a =>
    have ha : a = maxAttempts := runPoll_polling_eq env maxAttempts a hs
    unfold runPoll
    rw [hs, ha]
    simp [step, isDone]

/-- If the machine is terminal at time `m`, there is a transition index
at which it first became terminal. -/
theorem runPoll_crossing_exists (env : Nat → QueryResult) :
    ∀ m, isDone (runPoll env m) = true →
    ∃ n, isDone (runPoll env n) = false ∧ isDone (runPoll env (n + 1)) = true := by
  intro m
  induction m with
  | zero =>
    intro h
    have h0 : runPoll env 0 = PollState.Polling 0 := rfl
    rw [h0] at h
    simp [isDone] at h
  | succ k ih =>
    intro h
    cases hk : isDone (runPoll env k) with
    | true => exact ih hk
    | false => exact ⟨k, hk, h⟩

/-- The trajectory outcome agrees with the recursive poller: while the
machine is still polling at time `n` the residual poll from attempt `n`
resolves the same outcome as the full poll, and once the machine is
terminal its outcome is the outcome of the full poll. -/
theorem runPoll_outcome_inv (env : Nat → QueryResult) : ∀ n,
    (runPoll env n = PollState.Polling n ∧
      (pollAux env (maxAttempts - n) n).outcome = (pollPaymentStatus env 0).outcome)
  ∨ (∃ o, runPoll env n = PollState.Done o ∧ o = (pollPaymentStatus env 0).outcome) := by
  intro n
  induction n with
  | zero => left; exact ⟨rfl, rfl⟩
  | succ m ih =>
    rcases ih with ⟨hrun, hout⟩ | ⟨o, ho, heq⟩
    · by_cases hm : maxAttempts ≤ m
      · right
        refine ⟨Outcome.TimedOut, ?_, ?_⟩
        · unfold runPoll; rw [hrun]; simp [step, hm]
        · have h0 : maxAttempts - m = 0 := by omega
          rw [h0] at hout
          exact hout
      · have hr0 : maxAttempts - m ≠ 0 := by omega
        cases hq : env m with
        | success data =>
          by_cases h1 : data.payment_status = "paid"
          · right
            refine ⟨Outcome.Paid, ?_, ?_⟩
            · unfold runPoll; rw [hrun, hq]; simp [step, hm, h1]
            · rw [pollAux_paid_step env (maxAttempts - m) m data hr0 hq h1] at hout
              exact hout
          · by_cases h2 : data.status = "expired"
            · right
              refine ⟨Outcome.Expired, ?_, ?_⟩
              · unfold runPoll; rw [hrun, hq]; simp [step, hm, h1, h2]
              · rw [pollAux_expired_step env (maxAttempts - m) m data hr0 hq h1 h2] at hout
                exact hout
            · left
              constructor
              · unfold runPoll; rw [hrun, hq]; simp [step, hm, h1, h2]
              · rw [pollAux_pending_step env (maxAttempts - m) m data hr0 hq h1 h2] at hout
                have hsub : maxAttempts - m - 1 = maxAttempts - (m + 1) := by omega
                rw [hsub] at hout
                exact hout
        | failure =>
          by_cases h3 : m < 3
          · left
            constructor
            · unfold runPoll; rw [hrun, hq]; simp [step, hm, h3]
            · rw [pollAux_fail_retry env (maxAttempts - m) m hr0 h3 hq] at hout
              have hsub : maxAttempts - m - 1 = maxAttempts - (m + 1) := by omega
              rw [hsub] at hout
              exact hout
          · right
            refine ⟨Outcome.Failed, ?_, ?_⟩
            · unfold runPoll; rw [hrun, hq]; simp [step, hm, h3]
            · rw [pollAux_fail_stop env (maxAttempts - m) m hr0 (by omega) hq] at hout
              exact hout
    · right
      refine ⟨o, ?_, heq⟩
      unfold runPoll
      rw [ho]
      simp [step]

/-- Convenience form of the pending branch, phrased with
`isPendingResponse`. -/
theorem pollAux_pending_of_isPending (env : Nat → QueryResult) (r a : Nat)
    (hr : r ≠ 0) (h : isPendingResponse (env a) = true) :
    pollAux env r a =
      ⟨(pollAux env (r - 1) (a + 1)).outcome,
       (pollAux env (r - 1) (a + 1)).queries + 1,
       (pollAux env (r - 1) (a + 1)).delayMs + pollInterval⟩ := by
  cases hd : env a with
  | success data =>
    rw [hd] at h
    simp only [isPendingResponse, Bool.and_eq_true, Bool.not_eq_true',
      decide_eq_false_iff_not] at h
    exact pollAux_pending_step env r a data hr hd h.1 h.2
  | failure =>
    rw [hd] at h
    simp [isPendingResponse] at h

/-! ### Concrete environments used as witnesses and counterexamples -/

/-- A response body the loop treats as still pending. -/
def pendingData : StatusData := ⟨"pending", "pending"⟩

/-- A response body the loop treats as paid. -/
def paidData : StatusData := ⟨"paid", "pending"⟩

/-- Every query returns a pending response. -/
def envAllPending : Nat → QueryResult := fun _ => QueryResult.success pendingData

/-- Every query fails at the transport level. -/
def envAllFailures : Nat → QueryResult := fun _ => QueryResult.failure

/-- Two transport failures, one pending response, then two more
transport failures; pending afterwards. -/
def envFailFailPendFailFail : Nat → QueryResult := fun n =>
  if n = 0 then QueryResult.failure
  else if n = 1 then QueryResult.failure
  else if n = 2 then QueryResult.success pendingData
  else if n = 3 then QueryResult.failure
  else if n = 4 then QueryResult.failure
  else QueryResult.success pendingData

/-- Exactly three consecutive transport failures from the start, with
no success among them; pending responses afterwards. -/
def envThreeFailsThenPending : Nat → QueryResult := fun n =>
  if n < 3 then QueryResult.failure else QueryResult.success pendingData

/-- Ten pending responses, then a paid response as the 11th. -/
def envTenPendingThenPaid : Nat → QueryResult := fun n =>
  if n = 10 then QueryResult.success paidData else QueryResult.success pendingData

/-- Two pending responses, then a paid response as the 3rd. -/
def envPendPendPaid : Nat → QueryResult := fun n =>
  if n = 2 then QueryResult.success paidData else QueryResult.success pendingData

/-- Every query returns a response satisfying both terminal predicates
at once: `payment_status = "paid"` and `status = "expired"`. -/
def envPaidAndExpired : Nat → QueryResult :=
  fun _ => QueryResult.success ⟨"paid", "expired"⟩

/-! ### Claim theorems -/

/-- C1 counterexample: for the response sequence [transport failure,
transport failure, pending, transport failure, transport failure] the
poller DOES resolve `Failed` (after 4 queries), contrary to the claim
that the failure counter resets on the successful pending query and the
poll continues.  The source checks `attempts < 3` on the global attempt
index, so the transport failure at attempt index 3 is fatal even though
it is not the 3rd consecutive failure. -/
theorem c1_counterexample :
    (pollPaymentStatus envFailFailPendFailFail 0).outcome = Outcome.Failed ∧
    (pollPaymentStatus envFailFailPendFailFail 0).queries = 4 := by decide

/-- C1 (amended): the transport-failure budget is not consecutive and
does not reset on a successful query: the `catch` branch retries only
while the global attempt index is below 3, so for any response sequence
beginning [transport failure, transport failure, pending, transport
failure] the poller resolves `Failed` at the 4th query, after 4 queries
and 3 poll-interval delays. -/
theorem c1_amended_global_attempt_budget (env : Nat → QueryResult)
    (h0 : env 0 = QueryResult.failure)
    (h1 : env 1 = QueryResult.failure)
    (h2 : isPendingResponse (env 2) = true)
    (h3 : env 3 = QueryResult.failure) :
    pollPaymentStatus env 0 = ⟨Outcome.Failed, 4, 3 * pollInterval⟩ := by
  have e0 := pollAux_fail_retry env 10 0 (by decide) (by decide) h0
  norm_num at e0
  have e1 := pollAux_fail_retry env 9 1 (by decide) (by decide) h1
  norm_num at e1
  have e2 := pollAux_pending_of_isPending env 8 2 (by decide) h2
  norm_num at e2
  have e3 := pollAux_fail_stop env 7 3 (by decide) (by decide) h3
  have hstart : pollPaymentStatus env 0 = pollAux env 10 0 := rfl
  rw [hstart, e0, e1, e2, e3]
  rfl

/-- C1 amended witness at the concrete sequence
[failure, failure, pending, failure, failure, pending, ...]. -/
theorem c1_amended_witness :
    pollPaymentStatus envFailFailPendFailFail 0 =
      ⟨Outcome.Failed, 4, 3 * pollInterval⟩ :=
  c1_amended_global_attempt_budget envFailFailPendFailFail
    (by decide) (by decide) (by decide) (by decide)

/-- C2 counterexample: for the sequence with exactly 3 consecutive
transport failures from the start (pending responses afterwards), the
poller does NOT resolve `Failed` after 3 queries: all three failures
occur at attempt indices 0, 1, 2, which the source retries
(`attempts < 3`), so polling continues and the run ends in `TimedOut`
after 10 queries. -/
theorem c2_counterexample :
    (pollPaymentStatus envThreeFailsThenPending 0).outcome = Outcome.TimedOut ∧
    (pollPaymentStatus envThreeFailsThenPending 0).queries = 10 := by decide

/-- C2 (amended): a transport failure resolves `Failed` if and only if
it occurs at global attempt index at least 3 (the 4th or later query);
consecutiveness is not tracked.  Failures at attempt indices 0, 1, 2
are always retried, and for a response sequence consisting only of
transport failures the poller resolves `Failed` after exactly 4
queries, issuing no 5th query. -/
theorem c2_amended_failure_budget_is_attempt_indexed
    (env : Nat → QueryResult) (a : Nat) :
    (3 ≤ a → a < maxAttempts → env a = QueryResult.failure →
      pollPaymentStatus env a = ⟨Outcome.Failed, 1, 0⟩)
  ∧ (a < 3 → env a = QueryResult.failure →
      pollPaymentStatus env a =
        ⟨(pollPaymentStatus env (a + 1)).outcome,
         (pollPaymentStatus env (a + 1)).queries + 1,
         (pollPaymentStatus env (a + 1)).delayMs + pollInterval⟩)
  ∧ ((∀ n, env n = QueryResult.failure) →
      pollPaymentStatus env 0 = ⟨Outcome.Failed, 4, 3 * pollInterval⟩) := by
  refine ⟨?_, ?_, ?_⟩
  · intro h3 h10 hd
    have hr : maxAttempts - a ≠ 0 := by simp [maxAttempts] at h10 ⊢; omega
    exact pollAux_fail_stop env (maxAttempts - a) a hr h3 hd
  · intro h3 hd
    have hr : maxAttempts - a ≠ 0 := by simp [maxAttempts]; omega
    have h := pollAux_fail_retry env (maxAttempts - a) a hr h3 hd
    have hsub : maxAttempts - a - 1 = maxAttempts - (a + 1) := by
      simp [maxAttempts]; omega
    rw [hsub] at h
    exact h
  · intro hall
    have e0 := pollAux_fail_retry env 10 0 (by decide) (by decide) (hall 0)
    norm_num at e0
    have e1 := pollAux_fail_retry env 9 1 (by decide) (by decide) (hall 1)
    norm_num at e1
    have e2 := pollAux_fail_retry env 8 2 (by decide) (by decide) (hall 2)
    norm_num at e2
    have e3 := pollAux_fail_stop env 7 3 (by decide) (by decide) (hall 3)
    have hstart : pollPaymentStatus env 0 = pollAux env 10 0 := rfl
    rw [hstart, e0, e1, e2, e3]
    rfl

/-- C2 amended witness: a fatal failure at attempt index 3, and the
all-failures run resolving `Failed` after exactly 4 queries. -/
theorem c2_amended_witness :
    pollPaymentStatus envAllFailures 3 = ⟨Outcome.Failed, 1, 0⟩ ∧
    pollPaymentStatus envAllFailures 0 = ⟨Outcome.Failed, 4, 3 * pollInterval⟩ :=
  ⟨(c2_amended_failure_budget_is_attempt_indexed envAllFailures 3).1
      (by decide) (by decide) rfl,
   (c2_amended_failure_budget_is_attempt_indexed envAllFailures 3).2.2
      (fun _ => rfl)⟩

/-- C3: if every query succeeds with a pending response (no transport
error, never paid or expired), the poller performs exactly 10 queries
and resolves `TimedOut`; the query count 10 shows no 11th query is
issued. -/
theorem c3_all_pending_times_out (env : Nat → QueryResult)
    (h : ∀ n, isPendingResponse (env n) = true) :
    (pollPaymentStatus env 0).outcome = Outcome.TimedOut ∧
    (pollPaymentStatus env 0).queries = 10 := by
  have hall := pollAux_all_pending env h maxAttempts 0
  have hstart : pollPaymentStatus env 0 = pollAux env maxAttempts 0 := rfl
  rw [hstart, hall]
  exact ⟨rfl, rfl⟩

/-- C3 witness at the all-pending environment. -/
theorem c3_witness :
    (pollPaymentStatus envAllPending 0).outcome = Outcome.TimedOut ∧
    (pollPaymentStatus envAllPending 0).queries = 10 :=
  c3_all_pending_times_out envAllPending (fun _ => rfl)

/-- C4 counterexample: a response sequence whose 11th response (attempt
index 10) reports paid, the first 10 being pending.  The claim, read
for every N, predicts 11 queries and `Paid`; the poller instead stops
at the attempt budget: 10 queries, `TimedOut`, and the paid response is
never observed. -/
theorem c4_counterexample :
    envTenPendingThenPaid 10 = QueryResult.success paidData ∧
    paidData.payment_status = "paid" ∧
    pollPaymentStatus envTenPendingThenPaid 0 =
      ⟨Outcome.TimedOut, 10, 10 * pollInterval⟩ := by decide

/-- C4 (amended): for every N with 1 <= N <= 10, if the first N - 1
responses are pending and the Nth reports paid, the poller performs
exactly N queries, waits (N - 1) * 2000 ms in total across the N - 1
inter-query delays, resolves `Paid`, and issues no query N + 1 (the
query count is exactly N).  For N = 11 the attempt budget intervenes
and the poller resolves `TimedOut` instead (see the counterexample). -/
theorem c4_amended_paid_within_budget (env : Nat → QueryResult) (N : Nat)
    (hN1 : 1 ≤ N) (hN10 : N ≤ maxAttempts)
    (hpend : ∀ k, k + 1 < N → isPendingResponse (env k) = true)
    (hpaid : isPaidResponse (env (N - 1)) = true) :
    pollPaymentStatus env 0 = ⟨Outcome.Paid, N, (N - 1) * pollInterval⟩ := by
  have hpend0 : ∀ k, k + 1 < N → isPendingResponse (env (0 + k)) = true := by
    intro k hk
    rw [Nat.zero_add]
    exact hpend k hk
  have hpaid0 : isPaidResponse (env (0 + (N - 1))) = true := by
    rw [Nat.zero_add]
    exact hpaid
  exact pollAux_paid_at env N maxAttempts 0 hN1 hN10 hpend0 hpaid0

/-- C4 amended witness: [pending, pending, paid] resolves `Paid` after
3 queries and 2 delays. -/
theorem c4_amended_witness :
    pollPaymentStatus envPendPendPaid 0 = ⟨Outcome.Paid, 3, 2 * pollInterval⟩ :=
  c4_amended_paid_within_budget envPendPendPaid 3 (by decide) (by decide)
    (fun k hk => by
      have hk2 : k < 2 := by omega
      interval_cases k <;> decide)
    (by decide)

/-- C5: a successful response within the attempt budget is classified
by the two predicates checked on the one response object, in order:
`payment_status = "paid"` resolves `Paid` at once; otherwise
`status = "expired"` resolves `Expired` at once; every other successful
response (pending or unrecognized) makes the poller increment the
attempt index, schedule one poll-interval delay, and continue polling
from attempt a + 1 rather than resolve an error. -/
theorem c5_response_classification (env : Nat → QueryResult) (a : Nat)
    (data : StatusData) (ha : a < maxAttempts)
    (hd : env a = QueryResult.success data) :
    (data.payment_status = "paid" →
      pollPaymentStatus env a = ⟨Outcome.Paid, 1, 0⟩)
  ∧ (data.payment_status ≠ "paid" → data.status = "expired" →
      pollPaymentStatus env a = ⟨Outcome.Expired, 1, 0⟩)
  ∧ (data.payment_status ≠ "paid" → data.status ≠ "expired" →
      pollPaymentStatus env a =
        ⟨(pollPaymentStatus env (a + 1)).outcome,
         (pollPaymentStatus env (a + 1)).queries + 1,
         (pollPaymentStatus env (a + 1)).delayMs + pollInterval⟩) := by
  have hr : maxAttempts - a ≠ 0 := by simp [maxAttempts] at ha ⊢; omega
  refine ⟨?_, ?_, ?_⟩
  · intro hp
    exact pollAux_paid_step env (maxAttempts - a) a data hr hd hp
  · intro hp he
    exact pollAux_expired_step env (maxAttempts - a) a data hr hd hp he
  · intro hp he
    have h := pollAux_pending_step env (maxAttempts - a) a data hr hd hp he
    have hsub : maxAttempts - a - 1 = maxAttempts - (a + 1) := by
      simp [maxAttempts] at ha ⊢; omega
    rw [hsub] at h
    exact h

/-- C5 witness: a paid response resolves `Paid` at once, and a pending
response continues polling with the attempt index incremented. -/
theorem c5_witness :
    pollPaymentStatus envPendPendPaid 2 = ⟨Outcome.Paid, 1, 0⟩ ∧
    pollPaymentStatus envAllPending 0 =
      ⟨(pollPaymentStatus envAllPending 1).outcome,
       (pollPaymentStatus envAllPending 1).queries + 1,
       (pollPaymentStatus envAllPending 1).delayMs + pollInterval⟩ :=
  ⟨(c5_response_classification envPendPendPaid 2 paidData (by decide) (by decide)).1
      (by decide),
   (c5_response_classification envAllPending 0 pendingData (by decide) rfl).2.2
      (by decide) (by decide)⟩

/-- C6: for every sequence of query outcomes, including environments
defined on all of `Nat` (infinite sequences), the poll is a total
function (the embedding terminates by structural recursion on the
remaining budget), issues at most 10 status queries, and its outcome is
one of `Paid`, `Expired`, `TimedOut`, `Failed`; the `Outcome` type has
no other inhabitants, so no other outcome is possible. -/
theorem c6_termination_bound_and_outcomes (env : Nat → QueryResult) :
    (pollPaymentStatus env 0).queries ≤ maxAttempts ∧
    ((pollPaymentStatus env 0).outcome = Outcome.Paid ∨
     (pollPaymentStatus env 0).outcome = Outcome.Expired ∨
     (pollPaymentStatus env 0).outcome = Outcome.TimedOut ∨
     (pollPaymentStatus env 0).outcome = Outcome.Failed) := by
  constructor
  · exact pollAux_queries_le env maxAttempts 0
  · cases hout : (pollPaymentStatus env 0).outcome <;> simp

/-- C7: terminal states are absorbing.  (i) One transition from a done
state stays in the same done state and issues no query; (ii) every
state is exactly one of still-polling or terminal; (iii) along any
trajectory there is exactly one transition index at which the machine
becomes terminal, so exactly one terminal resolution is delivered;
(iv) from a terminal state no status query is ever issued again;
(v) the terminal outcome reached by the trajectory is exactly the
outcome of the recursive poller, so the four outcomes of
`pollPaymentStatus` are the only terminal states reachable. -/
theorem c7_terminal_states_absorbing (env : Nat → QueryResult) :
    (∀ o q, step (PollState.Done o) q = (PollState.Done o, false))
  ∧ (∀ s : PollState,
      ((∃ a, s = PollState.Polling a) ∧ ¬(∃ o, s = PollState.Done o)) ∨
      ((∃ o, s = PollState.Done o) ∧ ¬(∃ a, s = PollState.Polling a)))
  ∧ (∃! n, isDone (runPoll env n) = false ∧ isDone (runPoll env (n + 1)) = true)
  ∧ (∀ n, isDone (runPoll env n) = true → (step (runPoll env n) (env n)).2 = false)
  ∧ (∀ n o, runPoll env n = PollState.Done o →
      o = (pollPaymentStatus env 0).outcome) := by
  refine ⟨?_, ?_, ?_, ?_, ?_⟩
  · intro o q
    rfl
  · intro s
    cases s with
    | Polling a =>
      left
      refine ⟨⟨a, rfl⟩, ?_⟩
      rintro ⟨o, h⟩
      cases h
    | Done o =>
      right
      refine ⟨⟨o, rfl⟩, ?_⟩
      rintro ⟨a, h⟩
      cases h
  · obtain ⟨n, hn⟩ := runPoll_crossing_exists env (maxAttempts + 1)
      (runPoll_done_eleven env)
    refine ⟨n, hn, ?_⟩
    intro y hy
    rcases Nat.lt_trichotomy y n with hlt | heq | hgt
    · exfalso
      have ht := runPoll_done_mono env n (y + 1) (by omega) hy.2
      rw [hn.1] at ht
      exact absurd ht (by decide)
    · exact heq
    · exfalso
      have ht := runPoll_done_mono env y (n + 1) (by omega) hn.2
      rw [hy.1] at ht
      exact absurd ht (by decide)
  · intro n h
    cases hs : runPoll env n with
    | Polling a =>
      rw [hs] at h
      simp [isDone] at h
    | Done o =>
      rfl
  · intro n o h
    rcases runPoll_outcome_inv env n with ⟨hrun, _⟩ | ⟨o2, ho2, heq⟩
    · rw [hrun] at h
      cases h
    · rw [ho2] at h
      cases h
      exact heq

/-- C8: the two polling routines, `pollPaymentStatus` of the
consultations screen and `verifyPaymentStatus` of the payment-success
screen, are behaviorally equivalent: for every sequence of query
outcomes and every starting attempt index they produce the same
terminal outcome after the same number of queries and the same total
delay. -/
theorem c8_pollers_equivalent (env : Nat → QueryResult) (a : Nat) :
    pollPaymentStatus env a = verifyPaymentStatus env a :=
  pollAux_eq_verifyAux env (maxAttempts - a) a

/-- C10: when one successful response satisfies both terminal
predicates at once (`payment_status = "paid"` and
`status = "expired"`), the poller resolves `Paid`: the paid predicate
is checked first.  Conversely, when the poll started at that query
resolves `Expired`, the `payment_status` of that response was not "paid". -/
theorem c10_paid_checked_before_expired (env : Nat → QueryResult) (a : Nat)
    (data : StatusData) (ha : a < maxAttempts)
    (hd : env a = QueryResult.success data) :
    (data.payment_status = "paid" → data.status = "expired" →
      pollPaymentStatus env a = ⟨Outcome.Paid, 1, 0⟩)
  ∧ ((pollPaymentStatus env a).outcome = Outcome.Expired →
      data.payment_status ≠ "paid") := by
  have hr : maxAttempts - a ≠ 0 := by simp [maxAttempts] at ha ⊢; omega
  constructor
  · intro hp _
    exact pollAux_paid_step env (maxAttempts - a) a data hr hd hp
  · intro hout hp
    have hpaid := pollAux_paid_step env (maxAttempts - a) a data hr hd hp
    have hstart : pollPaymentStatus env a = pollAux env (maxAttempts - a) a := rfl
    rw [hstart, hpaid] at hout
    exact absurd hout (by decide)

/-- C10 witness: a response with both `payment_status = "paid"` and
`status = "expired"` resolves `Paid`. -/
theorem c10_witness :
    pollPaymentStatus envPaidAndExpired 0 = ⟨Outcome.Paid, 1, 0⟩ :=
  (c10_paid_checked_before_expired envPaidAndExpired 0 ⟨"paid", "expired"⟩
      (by decide) rfl).1 rfl rfl

/-- C6 witness at the all-pending environment. -/
theorem c6_witness :
    (pollPaymentStatus envAllPending 0).queries ≤ maxAttempts ∧
    ((pollPaymentStatus envAllPending 0).outcome = Outcome.Paid ∨
     (pollPaymentStatus envAllPending 0).outcome = Outcome.Expired ∨
     (pollPaymentStatus envAllPending 0).outcome = Outcome.TimedOut ∨
     (pollPaymentStatus envAllPending 0).outcome = Outcome.Failed) :=
  c6_termination_bound_and_outcomes envAllPending

/-- C7 witness at the all-pending environment. -/
theorem c7_witness :
    (∀ o q, step (PollState.Done o) q = (PollState.Done o, false))
  ∧ (∀ s : PollState,
      ((∃ a, s = PollState.Polling a) ∧ ¬(∃ o, s = PollState.Done o)) ∨
      ((∃ o, s = PollState.Done o) ∧ ¬(∃ a, s = PollState.Polling a)))
  ∧ (∃! n, isDone (runPoll envAllPending n) = false ∧
      isDone (runPoll envAllPending (n + 1)) = true)
  ∧ (∀ n, isDone (runPoll envAllPending n) = true →
      (step (runPoll envAllPending n) (envAllPending n)).2 = false)
  ∧ (∀ n o, runPoll envAllPending n = PollState.Done o →
      o = (pollPaymentStatus envAllPending 0).outcome) :=
  c7_terminal_states_absorbing envAllPending

/-- C8 witness at the all-failures environment. -/
theorem c8_witness :
    pollPaymentStatus envAllFailures 0 = verifyPaymentStatus envAllFailures 0 :=
  c8_pollers_equivalent envAllFailures 0
